import Mathlib

/-!
Verification development for the SPYSCALP terminal dashboard.

The definitions below are a shallow embedding of the operating-mode state
machine, the market-data polling loop and its fan-out to the display
surfaces (src/spyscalp.py), together with the TastyTrade option-chain
provider (quotes.py).  Decimal prices and strikes are embedded as `Int`
(a fixed-point scaling of the decimal values: only equality and order on
them matter to the properties below); streamer symbols are embedded as
opaque `Nat` identifiers; dates and timestamps as `Nat` codes.
-/

namespace Spyscalp

/-- `OperMode` enum of spyscalp.py (INACTIVE = 1, SIMULATION = 2, LIVE = 3). -/
inductive OperMode
  | INACTIVE
  | SIMULATION
  | LIVE
deriving DecidableEq, Repr

/-- The four screens installed by `SpyscalpApp.on_mount`:
`main`, `database`, `trading`, `debug`. -/
inductive ScreenName
  | main
  | database
  | trading
  | debug
deriving DecidableEq, Repr

/-- A point-in-time quote as returned by `get_quote` (symbol is fixed to
SPY throughout the app, so it is omitted; timestamp is a `Nat` code). -/
structure Quote where
  last : Int
  change : Int
  volume : Int
  timestamp : Nat
deriving DecidableEq, Repr

/-- The `"type"` field of an option record: `"CALL"` or `"PUT"`. -/
inductive OptType
  | CALL
  | PUT
deriving DecidableEq, Repr

/-- One option record as produced by `get_option_chain`:
`{"strike", "type", "bid", "ask", "expiry"}`. -/
structure OptionRecord where
  strike : Int
  type : OptType
  bid : Int
  ask : Int
  expiry : Nat
deriving DecidableEq, Repr

/-- One row of the options `DataTable` built by
`TradingScreen.update_options`: (Call Bid, Call Ask, STRIKE, Put Bid,
Put Ask).  In the source a missing call/put at a strike renders as `"-"`;
here that is `none`. -/
structure OptionRow where
  callBid : Option Int
  callAsk : Option Int
  strike : Int
  putBid : Option Int
  putAsk : Option Int
deriving DecidableEq, Repr

/-- The keys of the `strikes` dict built by `update_options`, in insertion
order (`if s not in strikes: strikes[s] = ...`). -/
def strikeKeys (options : List OptionRecord) : List Int :=
  options.foldl (fun ks o => if o.strike ∈ ks then ks else ks ++ [o.strike]) []

/-- The entry `strikes[s][t]` of the dict built by `update_options`: the
loop `strikes[s][opt["type"]] = opt` leaves the last record of strike `s`
and type `t`. -/
def dictEntry (options : List OptionRecord) (s : Int) (t : OptType) :
    Option OptionRecord :=
  options.foldl
    (fun acc o => if o.strike = s ∧ o.type = t then some o else acc) none

/-- `TradingScreen.update_options`: group the records by strike into the
`strikes` dict, then emit one table row per strike in `sorted` order. -/
def update_options (options : List OptionRecord) : List OptionRow :=
  ((strikeKeys options).insertionSort (· ≤ ·)).map (fun s =>
    let c := dictEntry options s OptType.CALL
    let p := dictEntry options s OptType.PUT
    { callBid := c.map OptionRecord.bid
      callAsk := c.map OptionRecord.ask
      strike := s
      putBid := p.map OptionRecord.bid
      putAsk := p.map OptionRecord.ask })

/-! ## quotes.py: `TastyTradeQuoteProvider.get_option_chain` -/

/-- One element of `expiration.strikes` in the nested chain returned by
the TastyTrade SDK: a strike price with its call and put streamer
symbols (symbols embedded as opaque `Nat` identifiers). -/
structure Strike where
  strike_price : Int
  call_streamer_symbol : Nat
  put_streamer_symbol : Nat
deriving DecidableEq, Repr

/-- One element of `chain.expirations` (`expiration_date` as a `Nat`
date code). -/
structure Expiration where
  expiration_date : Nat
  strikes : List Strike
deriving DecidableEq, Repr

/-- One element of the list returned by `NestedOptionChain.get`. -/
structure NestedChain where
  expirations : List Expiration
deriving DecidableEq, Repr

/-- One market-data element returned by `get_market_data_by_type`:
the symbol it is for and its (possibly missing) bid and ask. -/
structure MarketData where
  symbol : Nat
  bid : Option Int
  ask : Option Int
deriving DecidableEq, Repr

/-- `float(md.bid) if md and md.bid else 0.0`, applied to the already
looked-up optional field: a missing market-data entry, a missing field,
and a zero (falsy) field all report `0`. -/
def toVal : Option Int → Int
  | none => 0
  | some b => if b = 0 then 0 else b

/-- `call_symbols + put_symbols` for the chosen (first) expiration of the
first chain, before the 100-symbol truncation; `[]` when there is no
chain or no expiration (those branches return early). -/
def allSymbols (chains : List NestedChain) : List Nat :=
  match chains with
  | [] => []
  | chain :: _ =>
    match chain.expirations with
    | [] => []
    | expiration :: _ =>
      expiration.strikes.map Strike.call_streamer_symbol
        ++ expiration.strikes.map Strike.put_streamer_symbol

/-- The symbol list actually passed to `get_market_data_by_type`:
`if len(all_symbols) > 100: all_symbols = all_symbols[:100]`. -/
def requestedSymbols (chains : List NestedChain) : List Nat :=
  let all := allSymbols chains
  if all.length > 100 then all.take 100 else all

/-- The `data_map` dict built from the market-data list
(`{md.symbol: md for md in market_data_list}`): the last entry for a
symbol wins, a missing symbol yields `none`. -/
def data_map (mdl : List MarketData) (sym : Nat) : Option MarketData :=
  mdl.foldl (fun acc md => if md.symbol = sym then some md else acc) none

/-- `TastyTradeQuoteProvider.get_option_chain`, with the external calls
abstracted: `chains` is what `NestedOptionChain.get` returned and
`fetch` is `get_market_data_by_type` (taking the requested symbol list).
Errors raised inside are caught and yield `[]`; that branch is the
`[]`-returning early exits here. -/
def get_option_chain (chains : List NestedChain)
    (fetch : List Nat → List MarketData) : List OptionRecord :=
  match chains with
  | [] => []
  | chain :: _ =>
    match chain.expirations with
    | [] => []
    | expiration :: _ =>
      let expiry := expiration.expiration_date
      let market_data_list := fetch (requestedSymbols chains)
      expiration.strikes.flatMap (fun strike =>
        let call_md := data_map market_data_list strike.call_streamer_symbol
        let put_md := data_map market_data_list strike.put_streamer_symbol
        [{ strike := strike.strike_price, type := OptType.CALL
           bid := toVal (call_md.bind MarketData.bid)
           ask := toVal (call_md.bind MarketData.ask), expiry := expiry },
         { strike := strike.strike_price, type := OptType.PUT
           bid := toVal (put_md.bind MarketData.bid)
           ask := toVal (put_md.bind MarketData.ask), expiry := expiry }])

/-! ## spyscalp.py: the application state machine

The app runs on a single Textual event loop; `poll_market_data` is a
synchronous method, so a whole tick (fetch plus sink updates) executes
atomically between operator events.  The environment of one tick — what
the quote provider would answer — is an `Env`; operator/timer events are
`Event`s; a step yields the new state and the list of observable
effects (fetches issued, sink updates, notifications, timer control). -/

/-- Outcome of `self.quote_provider.get_quote("SPY")` as seen by
`poll_market_data`: a truthy quote dict, a falsy/empty result, or a
raised exception (caught by the surrounding `except`). -/
inductive QuoteOutcome
  | ok (q : Quote)
  | empty
  | err
deriving DecidableEq, Repr

/-- The provider's answers for one tick: the quote outcome and the
option list `get_option_chain` would return (it returns `[]` rather
than raising on failure). -/
structure Env where
  quoteRes : QuoteOutcome
  optionsRes : List OptionRecord
deriving DecidableEq, Repr

/-- The text of the `#hb-quote` header label on each of the four
installed screens (`none` before any update reaches that label). -/
structure HeaderQuotes where
  main : Option Quote
  database : Option Quote
  trading : Option Quote
  debug : Option Quote
deriving DecidableEq, Repr

/-- Read one screen's `#hb-quote` label. -/
def HeaderQuotes.get (h : HeaderQuotes) : ScreenName → Option Quote
  | ScreenName.main => h.main
  | ScreenName.database => h.database
  | ScreenName.trading => h.trading
  | ScreenName.debug => h.debug

/-- Write one screen's `#hb-quote` label. -/
def HeaderQuotes.set (h : HeaderQuotes) (s : ScreenName) (q : Quote) :
    HeaderQuotes :=
  match s with
  | ScreenName.main => { h with main := some q }
  | ScreenName.database => { h with database := some q }
  | ScreenName.trading => { h with trading := some q }
  | ScreenName.debug => { h with debug := some q }

/-- The mutable state of `SpyscalpApp` relevant to the mode/polling
core: the two reactives, the polling timer's pause flag, the active
(top-of-stack) screen, whether `init_provider` produced a provider, and
the displayed values (per-screen header quote labels, the trading
screen's quote panel, and its options table rows). -/
structure AppState where
  current_mode : OperMode
  is_holding : Bool
  timerPaused : Bool
  activeScreen : ScreenName
  hasProvider : Bool
  hbQuote : HeaderQuotes
  tradingQuote : Option Quote
  optionsRows : List OptionRow
deriving DecidableEq, Repr

/-- Severity of a `notify` toast. -/
inductive Severity
  | information
  | warning
  | error
deriving DecidableEq, Repr

/-- Observable effects of one step: quote/option fetches issued to the
provider, updates pushed to display sinks (the header label of a named
screen, the trading quote panel, a screen's options table), toast
notifications, and timer pause/resume. -/
inductive Effect
  | fetchQuote
  | fetchOptions
  | sinkHeaderQuote (s : ScreenName) (q : Quote)
  | sinkTradingQuote (q : Quote)
  | sinkOptions (s : ScreenName) (rows : List OptionRow)
  | notify (sev : Severity)
  | timerPause
  | timerResume
deriving DecidableEq, Repr

/-- `SpyscalpApp.poll_market_data`.  Without a provider it only
notifies.  Otherwise it fetches the quote; on a truthy quote it updates
the `#hb-quote` labels found by `self.query` — which is scoped to the
active screen (the code's own comment notes that `app.query` does not
reach other installed screens) — and, only when the trading screen is
the active one, updates the trading quote panel, additionally fetches
the option chain and replaces the options table.  An empty quote
notifies a warning; a raised error notifies an error; neither touches
any displayed value. -/
def poll_market_data (st : AppState) (env : Env) :
    AppState × List Effect :=
  if st.hasProvider = false then
    (st, [Effect.notify Severity.error])
  else
    match env.quoteRes with
    | QuoteOutcome.err => (st, [Effect.fetchQuote, Effect.notify Severity.error])
    | QuoteOutcome.empty =>
        (st, [Effect.fetchQuote, Effect.notify Severity.warning])
    | QuoteOutcome.ok q =>
        let st1 := { st with hbQuote := st.hbQuote.set st.activeScreen q }
        if st.activeScreen = ScreenName.trading then
          let rows := update_options env.optionsRes
          ({ st1 with tradingQuote := some q, optionsRows := rows },
           [Effect.fetchQuote, Effect.sinkHeaderQuote st.activeScreen q,
            Effect.sinkTradingQuote q, Effect.fetchOptions,
            Effect.sinkOptions ScreenName.trading rows])
        else
          (st1, [Effect.fetchQuote, Effect.sinkHeaderQuote st.activeScreen q])

/-- `SpyscalpApp.watch_current_mode`: on INACTIVE pause the polling
timer; on any other mode resume it and run `poll_market_data`
immediately. -/
def watch_current_mode (st : AppState) (env : Env) :
    AppState × List Effect :=
  match st.current_mode with
  | OperMode.INACTIVE => ({ st with timerPaused := true }, [Effect.timerPause])
  | _ =>
      let p := poll_market_data { st with timerPaused := false } env
      (p.1, Effect.timerResume :: p.2)

/-- `SpyscalpApp.action_mode` (F5): advance the mode (the reactive
assignment fires `watch_current_mode` synchronously), reset
`is_holding`, and notify the mode change. -/
def action_mode (st : AppState) (env : Env) : AppState × List Effect :=
  let m := match st.current_mode with
    | OperMode.INACTIVE => OperMode.SIMULATION
    | OperMode.SIMULATION => OperMode.LIVE
    | OperMode.LIVE => OperMode.INACTIVE
  let w := watch_current_mode { st with current_mode := m } env
  ({ w.1 with is_holding := false },
   w.2 ++ [Effect.notify Severity.information])

/-- `SpyscalpApp.action_qhold` (F3): rejected with a warning while
INACTIVE; otherwise toggles `is_holding` and notifies. -/
def action_qhold (st : AppState) : AppState × List Effect :=
  if st.current_mode = OperMode.INACTIVE then
    (st, [Effect.notify Severity.warning])
  else
    ({ st with is_holding := !st.is_holding },
     [Effect.notify Severity.information])

/-- `SpyscalpApp.action_hold` (F4): same guard and toggle as
`action_qhold`, different toast text. -/
def action_hold (st : AppState) : AppState × List Effect :=
  if st.current_mode = OperMode.INACTIVE then
    (st, [Effect.notify Severity.warning])
  else
    ({ st with is_holding := !st.is_holding },
     [Effect.notify Severity.information])

/-- `TradingScreen.action_refresh` (the `r` binding): calls
`self.app.poll_market_data()` with no mode or timer check. -/
def action_refresh (st : AppState) (env : Env) : AppState × List Effect :=
  poll_market_data st env

/-- Events the app reacts to: the F5 mode cycle, a firing of the
5-second interval timer, the manual refresh key on the trading screen,
the two hold keys, and a screen switch (push/pop). Fetch-bearing events
carry the provider's answers for that tick. -/
inductive Event
  | cycleMode (env : Env)
  | timerTick (env : Env)
  | manualRefresh (env : Env)
  | qhold
  | hold
  | switchScreen (s : ScreenName)
deriving DecidableEq, Repr

/-- One step of the event loop.  A paused timer does not fire (the tick
is a no-op); the refresh binding only exists on the trading screen. -/
def step (st : AppState) : Event → AppState × List Effect
  | Event.cycleMode env => action_mode st env
  | Event.timerTick env =>
      if st.timerPaused then (st, []) else poll_market_data st env
  | Event.manualRefresh env =>
      if st.activeScreen = ScreenName.trading then action_refresh st env
      else (st, [])
  | Event.qhold => action_qhold st
  | Event.hold => action_hold st
  | Event.switchScreen s => ({ st with activeScreen := s }, [])

/-- The state after `on_mount`: mode INACTIVE, not holding, the interval
timer created paused, the `main` screen pushed, no value displayed yet.
`provider` records whether `init_provider` succeeded. -/
def initState (provider : Bool) : AppState :=
  { current_mode := OperMode.INACTIVE
    is_holding := false
    timerPaused := true
    activeScreen := ScreenName.main
    hasProvider := provider
    hbQuote := { main := none, database := none, trading := none, debug := none }
    tradingQuote := none
    optionsRows := [] }

/-- Run a list of events from a state. -/
def run (st : AppState) : List Event → AppState
  | [] => st
  | e :: es => run (step st e).1 es

/-! ## Supporting lemmas -/

/-- The successor function of the F5 cycle in `action_mode`. -/
def modeSucc : OperMode → OperMode
  | OperMode.INACTIVE => OperMode.SIMULATION
  | OperMode.SIMULATION => OperMode.LIVE
  | OperMode.LIVE => OperMode.INACTIVE

/-- The mode expected after `n` cycle calls from the initial INACTIVE:
the cycle Inactive, Simulation, Live, Inactive, ... -/
def modeCycle (n : Nat) : OperMode :=
  if n % 3 = 0 then OperMode.INACTIVE
  else if n % 3 = 1 then OperMode.SIMULATION
  else OperMode.LIVE

theorem poll_market_data_mode (st : AppState) (env : Env) :
    (poll_market_data st env).1.current_mode = st.current_mode := by
  unfold poll_market_data
  split
  · rfl
  · split
    · rfl
    · rfl
    · dsimp only
      split
      · rfl
      · rfl

theorem poll_market_data_timerPaused (st : AppState) (env : Env) :
    (poll_market_data st env).1.timerPaused = st.timerPaused := by
  unfold poll_market_data
  split
  · rfl
  · split
    · rfl
    · rfl
    · dsimp only
      split
      · rfl
      · rfl

theorem action_mode_current_mode (st : AppState) (env : Env) :
    (action_mode st env).1.current_mode = modeSucc st.current_mode := by
  cases h : st.current_mode <;>
    simp [action_mode, watch_current_mode, modeSucc, h, poll_market_data_mode]

theorem action_mode_is_holding (st : AppState) (env : Env) :
    (action_mode st env).1.is_holding = false := rfl

theorem run_cycleMode (envs : List Env) (st : AppState) :
    (run st (envs.map Event.cycleMode)).current_mode
      = modeSucc^[envs.length] st.current_mode := by
  induction envs generalizing st with
  | nil => rfl
  | cons e rest ih =>
    simp only [List.map_cons, run, List.length_cons, step]
    rw [ih, action_mode_current_mode, ← Function.iterate_succ_apply]

theorem modeSucc_iterate_inactive (n : Nat) :
    modeSucc^[n] OperMode.INACTIVE = modeCycle n := by
  induction n with
  | zero => rfl
  | succ k ih =>
    rw [Function.iterate_succ_apply', ih]
    have h : k % 3 = 0 ∨ k % 3 = 1 ∨ k % 3 = 2 := by omega
    have h1 : (k + 1) % 3 = (k % 3 + 1) % 3 := by omega
    rcases h with h | h | h <;> simp [modeCycle, h1, h, modeSucc]

/-! ## Claims -/

/-- C1: for every sequence of `cycleMode()` calls starting from the
initial state, the operating mode follows the cycle Inactive,
Simulation, Live, back to Inactive, exactly in that order, and
`is_holding` is false immediately after every `cycleMode()` call
regardless of its value before the call. -/
theorem cycleMode_cycle_and_hold_reset :
    (∀ (st : AppState) (env : Env), (action_mode st env).1.is_holding = false)
    ∧ ∀ (provider : Bool) (envs : List Env),
        (run (initState provider) (envs.map Event.cycleMode)).current_mode
          = modeCycle envs.length :=
  ⟨fun st env => action_mode_is_holding st env,
   fun _ envs => by
     rw [run_cycleMode]
     exact modeSucc_iterate_inactive envs.length⟩

/-- C7: `action_qhold` and `action_hold` while INACTIVE leave the hold
flag (and the whole state) unchanged and notify a warning; in
SIMULATION or LIVE they flip the hold flag. -/
theorem toggleHold_inactive_rejected (st : AppState) :
    (st.current_mode = OperMode.INACTIVE →
      action_qhold st = (st, [Effect.notify Severity.warning])
      ∧ action_hold st = (st, [Effect.notify Severity.warning]))
    ∧ (st.current_mode ≠ OperMode.INACTIVE →
      (action_qhold st).1.is_holding = !st.is_holding
      ∧ (action_hold st).1.is_holding = !st.is_holding) := by
  constructor <;> intro h <;> simp [action_qhold, action_hold, h]

/-- Witness for C7 at concrete states: rejection in the initial
(INACTIVE) state, and a flip from a SIMULATION state. -/
theorem toggleHold_inactive_rejected_witness :
    action_qhold (initState true) = (initState true, [Effect.notify Severity.warning])
    ∧ (action_qhold
        { initState true with current_mode := OperMode.SIMULATION }).1.is_holding = true :=
  ⟨((toggleHold_inactive_rejected (initState true)).1 rfl).1,
   ((toggleHold_inactive_rejected
      { initState true with current_mode := OperMode.SIMULATION }).2 (by decide)).1⟩

/-! ### Concrete fixtures used by counterexamples and witnesses -/

/-- A concrete quote. -/
def qFix : Quote := { last := 100, change := 1, volume := 5, timestamp := 0 }

/-- A second concrete quote. -/
def qFix2 : Quote := { last := 101, change := 2, volume := 6, timestamp := 1 }

/-- A concrete option record. -/
def recFix : OptionRecord :=
  { strike := 5, type := OptType.CALL, bid := 1, ask := 2, expiry := 0 }

/-- A tick environment: successful quote, empty option list. -/
def envOk : Env := { quoteRes := QuoteOutcome.ok qFix, optionsRes := [] }

/-- A tick environment: successful quote, one option record. -/
def envOpts : Env := { quoteRes := QuoteOutcome.ok qFix2, optionsRes := [recFix] }

/-- A tick environment: empty (falsy) quote result. -/
def envEmpty : Env := { quoteRes := QuoteOutcome.empty, optionsRes := [] }

/-- C2 (code-bug exhibit): cycle the mode to INACTIVE on the trading
screen, then press the manual-refresh key.  `action_refresh` calls
`poll_market_data` with no mode check, so a fetch is issued and its
result reaches the sinks even though the mode is INACTIVE and the
polling timer is paused — contradicting the claim (and the docstring of
`poll_market_data`, "Fetched data when Mode is SIMULATION or LIVE"). -/
theorem inactive_refresh_still_fetches :
    (run (initState true) [Event.switchScreen ScreenName.trading, Event.cycleMode envOk,
        Event.cycleMode envOk, Event.cycleMode envOk]).current_mode = OperMode.INACTIVE
    ∧ (run (initState true) [Event.switchScreen ScreenName.trading, Event.cycleMode envOk,
        Event.cycleMode envOk, Event.cycleMode envOk]).timerPaused = true
    ∧ Effect.fetchQuote ∈
        (step (run (initState true) [Event.switchScreen ScreenName.trading,
          Event.cycleMode envOk, Event.cycleMode envOk, Event.cycleMode envOk])
          (Event.manualRefresh envOpts)).2
    ∧ (step (run (initState true) [Event.switchScreen ScreenName.trading,
          Event.cycleMode envOk, Event.cycleMode envOk, Event.cycleMode envOk])
          (Event.manualRefresh envOpts)).1.tradingQuote = some qFix2 := by decide

/-- C5 (code-bug exhibit): with the app in its initial INACTIVE mode
(scheduler paused) and the trading screen focused, the manual refresh
key is not a no-op: it fetches and updates the quote sinks. -/
theorem refresh_while_paused_not_noop :
    (run (initState true) [Event.switchScreen ScreenName.trading]).current_mode
        = OperMode.INACTIVE
    ∧ (run (initState true) [Event.switchScreen ScreenName.trading]).timerPaused = true
    ∧ Effect.fetchQuote ∈
        (step (run (initState true) [Event.switchScreen ScreenName.trading])
          (Event.manualRefresh envOk)).2
    ∧ (step (run (initState true) [Event.switchScreen ScreenName.trading])
          (Event.manualRefresh envOk)).1.hbQuote.trading = some qFix := by decide

/-- C3 (code-bug exhibit): a successful quote on the `main` screen
updates only the active screen's `#hb-quote` header label — the
`database`, `trading` and `debug` headers keep their previous value,
because `self.query("#hb-quote")` is scoped to the active screen even
though the adjacent comment says "All screens". -/
theorem quote_reaches_active_screen_only :
    (run (initState true) [Event.cycleMode envOk]).current_mode = OperMode.SIMULATION
    ∧ (run (initState true) [Event.cycleMode envOk]).activeScreen = ScreenName.main
    ∧ (run (initState true) [Event.cycleMode envOk]).hbQuote.main = some qFix
    ∧ (run (initState true) [Event.cycleMode envOk]).hbQuote.database = none
    ∧ (run (initState true) [Event.cycleMode envOk]).hbQuote.trading = none
    ∧ (run (initState true) [Event.cycleMode envOk]).hbQuote.debug = none := by decide

/-- A state on the trading screen with a provider, otherwise initial. -/
def stTrading : AppState := { initState true with activeScreen := ScreenName.trading }

/-- C4 (counterexample): on the trading screen a tick delivers a
non-empty option list; the next tick's option fetch returns `[]` and
`update_options` clears the table — the previously displayed option
rows are not retained — and no notification of any severity is
raised. -/
theorem empty_options_clear_table :
    (run (initState true) [Event.switchScreen ScreenName.trading,
        Event.cycleMode envOpts]).optionsRows ≠ []
    ∧ (step (run (initState true) [Event.switchScreen ScreenName.trading,
        Event.cycleMode envOpts]) (Event.timerTick envOk)).1.optionsRows = []
    ∧ Effect.notify Severity.information ∉
        (step (run (initState true) [Event.switchScreen ScreenName.trading,
          Event.cycleMode envOpts]) (Event.timerTick envOk)).2
    ∧ Effect.notify Severity.warning ∉
        (step (run (initState true) [Event.switchScreen ScreenName.trading,
          Event.cycleMode envOpts]) (Event.timerTick envOk)).2
    ∧ Effect.notify Severity.error ∉
        (step (run (initState true) [Event.switchScreen ScreenName.trading,
          Event.cycleMode envOpts]) (Event.timerTick envOk)).2 := by decide

/-- C4 (amended): a tick whose quote fetch raises or returns empty
leaves the whole state (hence every displayed value) unchanged and
raises a warning or error notification; but a tick whose option-chain
fetch returns an empty list replaces the trading screen's option rows
with an empty table. -/
theorem tick_failure_retention_amended (st : AppState) (env env' : Env) (q : Quote)
    (hq : env.quoteRes = QuoteOutcome.empty ∨ env.quoteRes = QuoteOutcome.err)
    (hp : st.hasProvider = true)
    (hq' : env'.quoteRes = QuoteOutcome.ok q) (ho : env'.optionsRes = [])
    (hs : st.activeScreen = ScreenName.trading) :
    (poll_market_data st env).1 = st
    ∧ (Effect.notify Severity.warning ∈ (poll_market_data st env).2
        ∨ Effect.notify Severity.error ∈ (poll_market_data st env).2)
    ∧ (poll_market_data st env').1.optionsRows = [] := by
  refine ⟨?_, ?_, ?_⟩
  · rcases hq with h | h <;> simp [poll_market_data, hp, h]
  · rcases hq with h | h <;> simp [poll_market_data, hp, h]
  · simp [poll_market_data, hp, hq', hs, ho, update_options, strikeKeys,
      List.insertionSort]

/-- Witness for C4's amended theorem at concrete inputs. -/
theorem tick_failure_retention_amended_witness :
    (poll_market_data stTrading envEmpty).1 = stTrading
    ∧ (Effect.notify Severity.warning ∈ (poll_market_data stTrading envEmpty).2
        ∨ Effect.notify Severity.error ∈ (poll_market_data stTrading envEmpty).2)
    ∧ (poll_market_data stTrading envOk).1.optionsRows = [] :=
  tick_failure_retention_amended stTrading envEmpty envOk qFix (Or.inl rfl)
    rfl rfl rfl rfl

/-- C6 (counterexample): a `cycleMode()` from SIMULATION to LIVE — a
transition between two non-Inactive modes — also triggers an immediate
out-of-band fetch, because `watch_current_mode` polls on every change
to a non-INACTIVE mode. -/
theorem sim_to_live_immediate_fetch :
    (run (initState true) [Event.cycleMode envOk]).current_mode = OperMode.SIMULATION
    ∧ (step (run (initState true) [Event.cycleMode envOk])
        (Event.cycleMode envOpts)).1.current_mode = OperMode.LIVE
    ∧ Effect.fetchQuote ∈
        (step (run (initState true) [Event.cycleMode envOk])
          (Event.cycleMode envOpts)).2 := by decide

theorem poll_count_fetchQuote (st : AppState) (env : Env)
    (hp : st.hasProvider = true) :
    (poll_market_data st env).2.count Effect.fetchQuote = 1 := by
  rcases env with ⟨qr, opts⟩
  cases qr <;>
    simp [poll_market_data, hp, List.count_cons, List.count_nil]
  split <;> simp [List.count_cons, List.count_nil]

theorem action_mode_effects (st : AppState) (env : Env) :
    (action_mode st env).2
      = (if modeSucc st.current_mode = OperMode.INACTIVE
          then [Effect.timerPause]
          else Effect.timerResume ::
            (poll_market_data
              { st with
                  current_mode := modeSucc st.current_mode
                  timerPaused := false } env).2)
        ++ [Effect.notify Severity.information] := by
  cases hcm : st.current_mode <;>
    simp [action_mode, watch_current_mode, modeSucc, hcm]

theorem action_mode_timerPaused (st : AppState) (env : Env) :
    (action_mode st env).1.timerPaused
      = (if modeSucc st.current_mode = OperMode.INACTIVE then true else false) := by
  cases hcm : st.current_mode <;>
    simp [action_mode, watch_current_mode, modeSucc, hcm,
      poll_market_data_timerPaused]

/-- C6 (amended): every `cycleMode()` whose resulting mode is
non-Inactive — including Simulation to Live — issues exactly one
immediate out-of-band quote fetch and leaves the timer running, while a
transition to Inactive issues no fetch and pauses the timer. -/
theorem immediate_fetch_on_nonInactive_amended (st : AppState) (env : Env)
    (hp : st.hasProvider = true) :
    ((action_mode st env).1.current_mode ≠ OperMode.INACTIVE →
      (action_mode st env).2.count Effect.fetchQuote = 1
      ∧ (action_mode st env).1.timerPaused = false)
    ∧ ((action_mode st env).1.current_mode = OperMode.INACTIVE →
      Effect.fetchQuote ∉ (action_mode st env).2
      ∧ (action_mode st env).1.timerPaused = true) := by
  have hmode := action_mode_current_mode st env
  have heff := action_mode_effects st env
  have ht := action_mode_timerPaused st env
  constructor
  · intro h
    rw [hmode] at h
    rw [heff, ht, if_neg h, if_neg h]
    refine ⟨?_, rfl⟩
    simp only [List.count_append, List.count_cons, List.count_nil]
    exact poll_count_fetchQuote _ env hp
  · intro h
    rw [hmode] at h
    rw [heff, ht, if_pos h, if_pos h]
    simp

/-- Witness for C6's amended theorem: activating from the initial
INACTIVE state fetches exactly once and resumes the timer. -/
theorem immediate_fetch_on_nonInactive_amended_witness :
    (action_mode (initState true) envOk).2.count Effect.fetchQuote = 1
    ∧ (action_mode (initState true) envOk).1.timerPaused = false :=
  (immediate_fetch_on_nonInactive_amended (initState true) envOk rfl).1 (by decide)

/-- C8 (counterexample): with the trading screen focused and the mode
active, a tick whose quote fetch returns empty performs no option-chain
fetch — so the option fetch is not governed by screen focus alone. -/
theorem options_skipped_on_empty_quote :
    (run (initState true) [Event.switchScreen ScreenName.trading,
        Event.cycleMode envOk]).activeScreen = ScreenName.trading
    ∧ (run (initState true) [Event.switchScreen ScreenName.trading,
        Event.cycleMode envOk]).timerPaused = false
    ∧ Effect.fetchOptions ∉
        (step (run (initState true) [Event.switchScreen ScreenName.trading,
          Event.cycleMode envOk]) (Event.timerTick envEmpty)).2 := by decide

theorem poll_sinkOptions_trading (st : AppState) (env : Env) (s : ScreenName)
    (rows : List OptionRow)
    (h : Effect.sinkOptions s rows ∈ (poll_market_data st env).2) :
    s = ScreenName.trading := by
  unfold poll_market_data at h
  split at h
  · simp at h
  · split at h
    · simp at h
    · simp at h
    · dsimp only at h
      split at h
      · simp at h
        exact h.1
      · simp at h

theorem step_sinkOptions_trading (st : AppState) (e : Event) (s : ScreenName)
    (rows : List OptionRow)
    (h : Effect.sinkOptions s rows ∈ (step st e).2) :
    s = ScreenName.trading := by
  cases e with
  | cycleMode env =>
      simp only [step] at h
      rw [action_mode_effects] at h
      rcases List.mem_append.mp h with h | h
      · split at h
        · simp at h
        · rcases List.mem_cons.mp h with h | h
          · simp at h
          · exact poll_sinkOptions_trading _ _ _ _ h
      · simp at h
  | timerTick env =>
      simp only [step] at h
      split at h
      · simp at h
      · exact poll_sinkOptions_trading _ _ _ _ h
  | manualRefresh env =>
      simp only [step] at h
      split at h
      · exact poll_sinkOptions_trading _ _ _ _ h
      · simp at h
  | qhold =>
      simp only [step] at h
      unfold action_qhold at h
      split at h <;> simp at h
  | hold =>
      simp only [step] at h
      unfold action_hold at h
      split at h <;> simp at h
  | switchScreen s' => simp [step] at h

/-- C8 (amended): on a tick with an initialized provider the quote is
fetched first; the option chain is additionally fetched if and only if
the trading screen is the active one AND the quote fetch returned a
non-empty quote; and an option-chain update is only ever delivered to
the trading screen's sink, never to any other. -/
theorem tick_quote_first_options_gated_amended (st : AppState) (env : Env)
    (hp : st.hasProvider = true) :
    (poll_market_data st env).2.head? = some Effect.fetchQuote
    ∧ (Effect.fetchOptions ∈ (poll_market_data st env).2
        ↔ st.activeScreen = ScreenName.trading
          ∧ ∃ q, env.quoteRes = QuoteOutcome.ok q)
    ∧ ∀ (e : Event) (s : ScreenName) (rows : List OptionRow),
        Effect.sinkOptions s rows ∈ (step st e).2 → s = ScreenName.trading := by
  refine ⟨?_, ?_, fun e s rows h => step_sinkOptions_trading st e s rows h⟩
  · rcases env with ⟨qr, opts⟩
    cases qr
    case ok q =>
      simp only [poll_market_data, hp]
      rw [if_neg (by simp)]
      split <;> rfl
    case empty => simp [poll_market_data, hp]
    case err => simp [poll_market_data, hp]
  · rcases env with ⟨qr, opts⟩
    cases qr
    case ok q =>
      simp only [poll_market_data, hp]
      rw [if_neg (by simp)]
      by_cases hs : st.activeScreen = ScreenName.trading <;> simp [hs]
    case empty => simp [poll_market_data, hp]
    case err => simp [poll_market_data, hp]

/-- Witness for C8's amended theorem at a concrete state and tick. -/
theorem tick_quote_first_options_gated_amended_witness :
    (poll_market_data stTrading envOpts).2.head? = some Effect.fetchQuote
    ∧ Effect.fetchOptions ∈ (poll_market_data stTrading envOpts).2
    ∧ ScreenName.trading = ScreenName.trading :=
  ⟨(tick_quote_first_options_gated_amended stTrading envOpts rfl).1,
   (tick_quote_first_options_gated_amended stTrading envOpts rfl).2.1.mpr
     ⟨rfl, ⟨qFix2, rfl⟩⟩,
   (tick_quote_first_options_gated_amended stTrading envOpts rfl).2.2
     (Event.manualRefresh envOpts) ScreenName.trading (update_options [recFix])
     (by decide)⟩

/-! ### Grouping lemmas for `update_options` -/

theorem mem_strikeKeys_foldl (opts : List OptionRecord) (ks : List Int) (s : Int) :
    s ∈ opts.foldl
        (fun ks o => if o.strike ∈ ks then ks else ks ++ [o.strike]) ks
      ↔ s ∈ ks ∨ s ∈ opts.map OptionRecord.strike := by
  induction opts generalizing ks with
  | nil => simp
  | cons o rest ih =>
    simp only [List.foldl_cons, List.map_cons, List.mem_cons]
    by_cases h : o.strike ∈ ks
    · rw [if_pos h, ih]
      constructor
      · rintro (hk | hr)
        · exact Or.inl hk
        · exact Or.inr (Or.inr hr)
      · rintro (hk | he | hr)
        · exact Or.inl hk
        · exact Or.inl (he ▸ h)
        · exact Or.inr hr
    · rw [if_neg h, ih]
      simp only [List.mem_append, List.mem_singleton]
      tauto

theorem nodup_strikeKeys_foldl (opts : List OptionRecord) (ks : List Int)
    (h : ks.Nodup) :
    (opts.foldl
      (fun ks o => if o.strike ∈ ks then ks else ks ++ [o.strike]) ks).Nodup := by
  induction opts generalizing ks with
  | nil => simpa
  | cons o rest ih =>
    simp only [List.foldl_cons]
    by_cases hm : o.strike ∈ ks
    · rw [if_pos hm]; exact ih ks h
    · rw [if_neg hm]
      exact ih _ (by simp [List.nodup_append, h, hm])

theorem mem_strikeKeys (opts : List OptionRecord) (s : Int) :
    s ∈ strikeKeys opts ↔ s ∈ opts.map OptionRecord.strike := by
  rw [strikeKeys]
  simpa using mem_strikeKeys_foldl opts [] s

theorem nodup_strikeKeys (opts : List OptionRecord) :
    (strikeKeys opts).Nodup := by
  rw [strikeKeys]
  exact nodup_strikeKeys_foldl opts [] List.nodup_nil

theorem getLast?_cons_or {α : Type} (l : List α) (a : α) :
    (a :: l).getLast? = l.getLast?.or (some a) := by
  induction l generalizing a with
  | nil => rfl
  | cons b t ih =>
    rw [List.getLast?_cons_cons, ih b]
    cases t.getLast? <;> rfl

theorem dictEntry_foldl (opts : List OptionRecord) (s : Int) (t : OptType)
    (acc : Option OptionRecord) :
    opts.foldl (fun acc o => if o.strike = s ∧ o.type = t then some o else acc) acc
      = ((opts.filter
          (fun o => decide (o.strike = s ∧ o.type = t))).getLast?).or acc := by
  induction opts generalizing acc with
  | nil => rfl
  | cons o rest ih =>
    simp only [List.foldl_cons, List.filter_cons]
    by_cases h : o.strike = s ∧ o.type = t
    · rw [if_pos h, ih, if_pos (by simpa using h), getLast?_cons_or]
      cases (rest.filter (fun o => decide (o.strike = s ∧ o.type = t))).getLast? <;>
        rfl
    · rw [if_neg h, ih, if_neg (by simpa using h)]

theorem dictEntry_eq_getLast_filter (opts : List OptionRecord) (s : Int)
    (t : OptType) :
    dictEntry opts s t
      = (opts.filter (fun o => decide (o.strike = s ∧ o.type = t))).getLast? := by
  rw [dictEntry, dictEntry_foldl]
  cases (opts.filter (fun o => decide (o.strike = s ∧ o.type = t))).getLast? <;> rfl

theorem update_options_map_strike (options : List OptionRecord) :
    (update_options options).map OptionRow.strike
      = (strikeKeys options).insertionSort (· ≤ ·) := by
  rw [update_options, List.map_map]
  exact List.map_id _

/-- C9: for every list of option records, `update_options` groups the
records by strike into rows of (callBid, callAsk, strike, putBid,
putAsk): the row strikes are exactly the distinct strikes of the input
(one row per distinct strike), sorted strictly ascending, and each
row's call and put sides carry the bid/ask of the last input record of
that strike and type (`none`, rendered "-", when there is none). -/
theorem update_options_grouping (options : List OptionRecord) :
    List.Sorted (· < ·) ((update_options options).map OptionRow.strike)
    ∧ (∀ s : Int, s ∈ (update_options options).map OptionRow.strike
        ↔ s ∈ options.map OptionRecord.strike)
    ∧ ∀ r ∈ update_options options,
        r.callBid = ((options.filter (fun o =>
            decide (o.strike = r.strike ∧ o.type = OptType.CALL))).getLast?).map
              OptionRecord.bid
        ∧ r.callAsk = ((options.filter (fun o =>
            decide (o.strike = r.strike ∧ o.type = OptType.CALL))).getLast?).map
              OptionRecord.ask
        ∧ r.putBid = ((options.filter (fun o =>
            decide (o.strike = r.strike ∧ o.type = OptType.PUT))).getLast?).map
              OptionRecord.bid
        ∧ r.putAsk = ((options.filter (fun o =>
            decide (o.strike = r.strike ∧ o.type = OptType.PUT))).getLast?).map
              OptionRecord.ask := by
  refine ⟨?_, ?_, ?_⟩
  · rw [update_options_map_strike]
    refine List.Sorted.lt_of_le (List.sorted_insertionSort _ _) ?_
    exact ((List.perm_insertionSort _ _).nodup_iff).mpr (nodup_strikeKeys options)
  · intro s
    rw [update_options_map_strike,
      (List.perm_insertionSort (· ≤ ·) (strikeKeys options)).mem_iff]
    exact mem_strikeKeys options s
  · intro r hr
    rw [update_options] at hr
    rcases List.mem_map.mp hr with ⟨s, _, rfl⟩
    refine ⟨?_, ?_, ?_, ?_⟩ <;> simp [dictEntry_eq_getLast_filter]

/-- Concrete option list for the C9 witness. -/
def opts9 : List OptionRecord :=
  [ { strike := 5, type := OptType.CALL, bid := 1, ask := 2, expiry := 0 },
    { strike := 4, type := OptType.PUT, bid := 3, ask := 4, expiry := 0 },
    { strike := 5, type := OptType.CALL, bid := 7, ask := 8, expiry := 0 } ]

/-- The row `update_options opts9` produces for strike 4. -/
def row9 : OptionRow :=
  { callBid := none, callAsk := none, strike := 4,
    putBid := some 3, putAsk := some 4 }

/-- Witness for C9 at a concrete record list and row. -/
theorem update_options_grouping_witness :
    List.Sorted (· < ·) ((update_options opts9).map OptionRow.strike)
    ∧ ((4 : Int) ∈ (update_options opts9).map OptionRow.strike
        ↔ (4 : Int) ∈ opts9.map OptionRecord.strike)
    ∧ (row9.callBid = ((opts9.filter (fun o =>
          decide (o.strike = row9.strike ∧ o.type = OptType.CALL))).getLast?).map
            OptionRecord.bid
       ∧ row9.callAsk = ((opts9.filter (fun o =>
          decide (o.strike = row9.strike ∧ o.type = OptType.CALL))).getLast?).map
            OptionRecord.ask
       ∧ row9.putBid = ((opts9.filter (fun o =>
          decide (o.strike = row9.strike ∧ o.type = OptType.PUT))).getLast?).map
            OptionRecord.bid
       ∧ row9.putAsk = ((opts9.filter (fun o =>
          decide (o.strike = row9.strike ∧ o.type = OptType.PUT))).getLast?).map
            OptionRecord.ask) :=
  ⟨(update_options_grouping opts9).1,
   (update_options_grouping opts9).2.1 4,
   (update_options_grouping opts9).2.2 row9 (by decide)⟩

/-! ### Truncation lemmas for `get_option_chain` -/

theorem data_map_eq_none (mdl : List MarketData) (sym : Nat)
    (h : ∀ md ∈ mdl, md.symbol ≠ sym) : data_map mdl sym = none := by
  have aux : ∀ (l : List MarketData) (acc : Option MarketData),
      (∀ md ∈ l, md.symbol ≠ sym) →
      l.foldl (fun acc md => if md.symbol = sym then some md else acc) acc
        = acc := by
    intro l
    induction l with
    | nil => intro acc _; rfl
    | cons m t ih =>
      intro acc hl
      simp only [List.foldl_cons]
      rw [if_neg (hl m (List.mem_cons_self m t))]
      exact ih acc (fun md hm => hl md (List.mem_cons_of_mem m hm))
  exact aux mdl none h

/-- C10: `get_option_chain` requests market data for at most 100 option
symbols per call: when the combined call+put symbol list of the chosen
expiration exceeds 100 entries it is truncated to the first 100, and
every strike whose call (resp. put) symbol falls outside the truncated
request is still returned as a record, with its bid and ask reported as
0 (assuming the market-data call only answers for requested
symbols). -/
theorem get_option_chain_truncation (chains : List NestedChain)
    (chain : NestedChain) (expiration : Expiration)
    (restC : List NestedChain) (restE : List Expiration)
    (fetch : List Nat → List MarketData)
    (hch : chains = chain :: restC)
    (hexp : chain.expirations = expiration :: restE)
    (hfetch : ∀ md ∈ fetch (requestedSymbols chains),
        md.symbol ∈ requestedSymbols chains) :
    (requestedSymbols chains).length ≤ 100
    ∧ ((allSymbols chains).length > 100 →
        requestedSymbols chains = (allSymbols chains).take 100)
    ∧ ∀ strike ∈ expiration.strikes,
        (strike.call_streamer_symbol ∉ requestedSymbols chains →
          ({ strike := strike.strike_price, type := OptType.CALL, bid := 0, ask := 0,
             expiry := expiration.expiration_date } : OptionRecord)
            ∈ get_option_chain chains fetch)
        ∧ (strike.put_streamer_symbol ∉ requestedSymbols chains →
          ({ strike := strike.strike_price, type := OptType.PUT, bid := 0, ask := 0,
             expiry := expiration.expiration_date } : OptionRecord)
            ∈ get_option_chain chains fetch) := by
  have hreq : requestedSymbols chains
      = if (allSymbols chains).length > 100
          then (allSymbols chains).take 100 else allSymbols chains := rfl
  refine ⟨?_, ?_, ?_⟩
  · rw [hreq]
    split
    · rw [List.length_take]; omega
    · omega
  · intro h
    rw [hreq, if_pos h]
  · intro strike hs
    have hout : get_option_chain chains fetch
        = expiration.strikes.flatMap (fun strike =>
          let call_md := data_map (fetch (requestedSymbols chains))
            strike.call_streamer_symbol
          let put_md := data_map (fetch (requestedSymbols chains))
            strike.put_streamer_symbol
          [{ strike := strike.strike_price, type := OptType.CALL
             bid := toVal (call_md.bind MarketData.bid)
             ask := toVal (call_md.bind MarketData.ask)
             expiry := expiration.expiration_date },
           { strike := strike.strike_price, type := OptType.PUT
             bid := toVal (put_md.bind MarketData.bid)
             ask := toVal (put_md.bind MarketData.ask)
             expiry := expiration.expiration_date }]) := by
      subst hch
      rw [get_option_chain, hexp]
    constructor
    · intro hc
      have hnone : data_map (fetch (requestedSymbols chains))
          strike.call_streamer_symbol = none :=
        data_map_eq_none _ _
          (fun md hm heq => hc (heq ▸ hfetch md hm))
      rw [hout]
      refine List.mem_flatMap.mpr ⟨strike, hs, ?_⟩
      rw [hnone]
      simp [toVal]
    · intro hp
      have hnone : data_map (fetch (requestedSymbols chains))
          strike.put_streamer_symbol = none :=
        data_map_eq_none _ _
          (fun md hm heq => hp (heq ▸ hfetch md hm))
      rw [hout]
      refine List.mem_flatMap.mpr ⟨strike, hs, ?_⟩
      rw [hnone]
      simp [toVal]

/-- Fifty-one strikes, so the combined symbol list has 102 entries:
call symbols `0..50`, put symbols `100..150`. -/
def bigStrikes : List Strike :=
  (List.range 51).map (fun i =>
    { strike_price := Int.ofNat i, call_streamer_symbol := i,
      put_streamer_symbol := 100 + i })

/-- The expiration holding `bigStrikes`. -/
def bigExpiration : Expiration := { expiration_date := 7, strikes := bigStrikes }

/-- The chain holding `bigExpiration`. -/
def bigChain : NestedChain := { expirations := [bigExpiration] }

/-- The chain list for the C10 witness. -/
def bigChains : List NestedChain := [bigChain]

/-- The 51st strike: its put symbol 150 falls outside the truncated
100-symbol request. -/
def strike50 : Strike :=
  { strike_price := Int.ofNat 50, call_streamer_symbol := 50,
    put_streamer_symbol := 150 }

/-- Witness for C10: with 102 combined symbols only 100 are requested
and the strike whose put symbol was cut off still yields a PUT record
with zero bid and ask. -/
theorem get_option_chain_truncation_witness :
    (requestedSymbols bigChains).length ≤ 100
    ∧ ({ strike := strike50.strike_price, type := OptType.PUT, bid := 0, ask := 0,
         expiry := bigExpiration.expiration_date } : OptionRecord)
        ∈ get_option_chain bigChains (fun _ => []) :=
  ⟨(get_option_chain_truncation bigChains bigChain bigExpiration [] []
      (fun _ => []) rfl rfl (by simp)).1,
   ((get_option_chain_truncation bigChains bigChain bigExpiration [] []
      (fun _ => []) rfl rfl (by simp)).2.2 strike50 (by decide)).2 (by decide)⟩

end Spyscalp
